import Mathlib

/-!
Verification of the DocuChat-API embedded document/vector store.

The definitions below are a shallow embedding of the Python source:

* `app/db/engine.py` — connection setup (`PRAGMA foreign_keys = ON`,
  `isolation_level=None`, i.e. sqlite autocommit), schema initialization with
  fail-open vector-acceleration loading;
* `app/db/operations.py` — `insert_document`, `insert_chunks`,
  `insert_embedding`, `search_similar_embeddings`, `get_documents`,
  `delete_document`, `find_document_by_hash`;
* `ducuchat_api/config.py` — pydantic `SessionConfig` resolution of
  `chunk_size` / `chunk_overlap` from `embedding_dimensions`.

SQLite itself is not in the repository, so the semantics of the SQL statements
executed by the code (primary-key and foreign-key enforcement, `ON DELETE
CASCADE`, `ORDER BY ... DESC LIMIT ?` including the "negative LIMIT means no
limit" rule, autocommit transactions) are embedded as the behavior of the
operations on an explicit `Store` state.  The `vec0` virtual table of the
sqlite-vec extension is likewise embedded: it stores one fixed-width float32
blob per rowid and rejects blobs of the wrong byte length; its
`vec_cosine_similarity` SQL function is kept abstract as a parameter `simFn`
of the search operation, since its numerics live in the extension, not in the
repository.

Similarity scores and thresholds are modelled as exact rationals; IEEE-754
float32 values are modelled by their 32-bit words, which is exact for the
byte-level storage encoding the code performs with numpy `tobytes` /
`frombuffer`.
-/

namespace DocuChat

/-! ### Stable descending sort by a key

Models both the SQL `ORDER BY similarity DESC` step and the final Python
`results.sort(key=..., reverse=True)` (CPython's sort is stable; with
`reverse=True` elements with equal keys keep their original order, which is
exactly stable insertion that places a new element before the first strictly
smaller key). -/

def insertDesc {α β : Type} [LinearOrder β] (k : α → β) (x : α) : List α → List α
  | [] => [x]
  | y :: ys => if k y ≤ k x then x :: y :: ys else y :: insertDesc k x ys

def sortDesc {α β : Type} [LinearOrder β] (k : α → β) : List α → List α
  | [] => []
  | x :: xs => insertDesc k x (sortDesc k xs)

/-- Descending sortedness by a key, as pairwise order. -/
def SortedDesc {α β : Type} [LinearOrder β] (k : α → β) (l : List α) : Prop :=
  l.Pairwise (fun a b => k b ≤ k a)

/-! ### Float32 storage blobs

`insert_embedding` runs `np.array(v, dtype=np.float32).tobytes()` and the
search result decoding runs `np.frombuffer(blob, dtype=np.float32)`.  A
float32 value is identified with its 32-bit word; `tobytes` lays the words
out as 4 bytes each, little-endian (the native order of the platforms the
code targets), with no delimiter and no length prefix. -/

def encodeWord (w : Nat) : List Nat :=
  [w % 256, w / 256 % 256, w / 65536 % 256, w / 16777216 % 256]

/-- Byte serialization of a float32 word list (numpy `tobytes`). -/
def encodeBlob : List Nat → List Nat
  | [] => []
  | w :: ws => encodeWord w ++ encodeBlob ws

/-- Byte deserialization back to float32 words (numpy `frombuffer`); numpy
ignores a trailing fragment shorter than one element. -/
def decodeBlob : List Nat → List Nat
  | b0 :: b1 :: b2 :: b3 :: rest =>
      (b0 + 256 * b1 + 65536 * b2 + 16777216 * b3) :: decodeBlob rest
  | _ => []

/-! ### Data model

Rows of the three relations created by `initialize_database_without_vec` and
`initialize_database` in `app/db/engine.py`:

* `documents(id PK, name, type, size, file_hash, created_at)`;
* `chunks(id PK, document_id FK -> documents ON DELETE CASCADE, content,
  created_at)` — foreign keys are active because `get_db_connection` runs
  `PRAGMA foreign_keys = ON` on every connection;
* `vss_embeddings` — the `vec0` virtual table `embedding float[dimensions]`,
  keyed by the chunks' rowid space, present only when the acceleration
  extension loaded and the table was created (`vecAvailable`).
-/

structure Document where
  id : String
  name : String
  type : String
  size : Nat
  file_hash : Option String
  created_at : Nat
  deriving DecidableEq, Repr

structure Chunk where
  rowid : Nat
  id : String
  document_id : String
  content : String
  created_at : Nat
  deriving DecidableEq, Repr

structure EmbeddingRow where
  rowid : Nat
  blob : List Nat
  deriving DecidableEq, Repr

/-- The persistent state of one database file. `vecAvailable` records whether
the `vss_embeddings` vec0 table exists; `vecDim` is the `float[dimensions]`
width it was created with. -/
structure Store where
  documents : List Document
  chunks : List Chunk
  embeddings : List EmbeddingRow
  vecAvailable : Bool
  vecDim : Nat
  deriving DecidableEq, Repr

/-- Failures surfaced to callers.  The Python code raises library exceptions;
the spec's error taxonomy gives them abstract names.

* `conflictError` — `sqlite3.IntegrityError` on a duplicate primary key
  (spec: `ConflictError`);
* `foreignKeyError` — `sqlite3.IntegrityError` on a FOREIGN KEY violation;
* `notFoundError` — the `ValueError("Chunk with id ... not found")` that
  `insert_embedding` raises itself (spec: `NotFoundError`);
* `noSuchTable` — `sqlite3.OperationalError: no such table` when a statement
  touches the missing `vss_embeddings` table of a degraded store;
* `vecDimensionReject` — the error the sqlite-vec `vec0` virtual table raises
  when an inserted blob does not match `float[dimensions]`;
* `dimensionMismatchError` — the spec taxonomy's operation-level
  `DimensionMismatchError`.  No code in the repository defines or raises such
  an error; the constructor exists so that claims about it can be stated. -/
inductive Err where
  | conflictError : Err
  | foreignKeyError : Err
  | notFoundError : Err
  | noSuchTable : Err
  | vecDimensionReject : Err
  | dimensionMismatchError : Err
  deriving DecidableEq, Repr

/-- Caller-supplied document dictionary (`created_at` is assigned by the
database default `CURRENT_TIMESTAMP`, passed here as `now`). -/
structure DocInput where
  id : String
  name : String
  type : String
  size : Nat
  file_hash : Option String
  deriving DecidableEq, Repr

/-- Caller-supplied chunk dictionary. -/
structure ChunkInput where
  id : String
  document_id : String
  content : String
  deriving DecidableEq, Repr

def docIdExists (st : Store) (id : String) : Bool :=
  st.documents.any (fun d => d.id == id)

def chunkIdExists (st : Store) (id : String) : Bool :=
  st.chunks.any (fun c => c.id == id)

/-- SQLite assigns a fresh rowid one above the largest in use. -/
def nextRowid (st : Store) : Nat :=
  (st.chunks.map (fun c => c.rowid)).foldr max 0 + 1

/-! ### Operations (`app/db/operations.py`)

Every operation opens its own connection with `isolation_level=None`, i.e.
sqlite **autocommit**: each statement commits as soon as it executes, and the
`with connection:` blocks in `insert_chunks` / `delete_document` neither open
a transaction nor roll anything back (the Python `sqlite3` connection context
manager is a no-op when no transaction is open).  Each operation is therefore
a function `Store → Except Err α × Store` whose returned store is the state
actually persisted, including on the error path. -/

/-- `insert_document`: one autocommitted `INSERT INTO documents`; a duplicate
id surfaces the primary-key violation. -/
def insert_document (st : Store) (d : DocInput) (now : Nat) :
    Except Err String × Store :=
  if docIdExists st d.id then (.error .conflictError, st)
  else (.ok d.id,
    { st with documents := st.documents ++ [⟨d.id, d.name, d.type, d.size, d.file_hash, now⟩] })

/-- One `INSERT INTO chunks` statement: primary-key check on `id`, foreign-key
check on `document_id` (foreign keys are ON for every connection). -/
def insertChunkRow (st : Store) (c : ChunkInput) (now : Nat) : Except Err Store :=
  if chunkIdExists st c.id then .error .conflictError
  else if ¬ docIdExists st c.document_id then .error .foreignKeyError
  else .ok { st with
    chunks := st.chunks ++ [⟨nextRowid st, c.id, c.document_id, c.content, now⟩] }

/-- The `for chunk in chunks:` loop of `insert_chunks`.  Because the
connection is in autocommit mode, every successful `INSERT` is committed
immediately: when a later chunk fails, the state returned with the error
still contains the previously inserted prefix. -/
def insertChunksLoop (now : Nat) : Store → List ChunkInput → Except Err Unit × Store
  | st, [] => (.ok (), st)
  | st, c :: cs =>
    match insertChunkRow st c now with
    | .error e => (.error e, st)
    | .ok st' => insertChunksLoop now st' cs

/-- `insert_chunks`: loops over the batch and reports `len(chunks)` on
success. -/
def insert_chunks (st : Store) (cs : List ChunkInput) (now : Nat) :
    Except Err Nat × Store :=
  match insertChunksLoop now st cs with
  | (.ok _, st') => (.ok cs.length, st')
  | (.error e, st') => (.error e, st')

/-- `insert_embedding`: looks up the chunk's rowid first and raises its own
`ValueError` (`notFoundError`) when absent; otherwise encodes the vector with
`tobytes` and executes `INSERT INTO vss_embeddings (rowid, embedding)`, whose
outcome is decided by the store: missing table on a degraded store, blob
width enforcement and rowid uniqueness by the vec0 table. -/
def insert_embedding (st : Store) (chunk_id : String) (vector : List Nat) :
    Except Err Unit × Store :=
  match st.chunks.find? (fun c => c.id == chunk_id) with
  | none => (.error .notFoundError, st)
  | some c =>
    if ¬ st.vecAvailable then (.error .noSuchTable, st)
    else if (encodeBlob vector).length ≠ 4 * st.vecDim then
      (.error .vecDimensionReject, st)
    else if st.embeddings.any (fun e => e.rowid == c.rowid) then
      (.error .conflictError, st)
    else (.ok (),
      { st with embeddings := st.embeddings ++ [⟨c.rowid, encodeBlob vector⟩] })

/-- SQL `LIMIT ?` semantics: a negative limit means no limit at all. -/
def sqlLimit {α : Type} (limit : Int) (l : List α) : List α :=
  if limit < 0 then l else l.take limit.toNat

/-- One row of the search result list. -/
structure SearchResult where
  chunk_id : String
  content : String
  document_id : String
  similarity : ℚ
  embedding : List Nat
  deriving DecidableEq, Repr

/-- `search_similar_embeddings`.  `simFn` is the sqlite-vec SQL function
`vec_cosine_similarity`, applied to a stored blob and the encoded query blob;
it lives in the extension, outside the repository, and is kept abstract.

The query mirrors the SQL: the `matches` CTE scores every `vss_embeddings`
row, sorts descending and applies `LIMIT ?`; the outer query joins `chunks`
and `vss_embeddings` on the rowid, keeps rows with `similarity >= ?`
(threshold = `override_threshold` if given, else `similarity_threshold`), and
the Python postlude decodes each blob and re-sorts descending. -/
def search_similar_embeddings (simFn : List Nat → List Nat → ℚ) (st : Store)
    (embedding_vector : List Nat) (limit : Int) (override_threshold : Option ℚ)
    (similarity_threshold : ℚ) : Except Err (List SearchResult) × Store :=
  if ¬ st.vecAvailable then (.error .noSuchTable, st)
  else
    let qblob := encodeBlob embedding_vector
    let threshold := override_threshold.getD similarity_threshold
    let scored := st.embeddings.map (fun e => (e, simFn e.blob qblob))
    let matchRows := sqlLimit limit (sortDesc (fun m => m.2) scored)
    let joined := matchRows.filterMap (fun m =>
      (st.chunks.find? (fun c => c.rowid == m.1.rowid)).map (fun c =>
        ⟨c.id, c.content, c.document_id, m.2, decodeBlob m.1.blob⟩))
    let filtered := joined.filter (fun r => threshold ≤ r.similarity)
    (.ok (sortDesc (fun r => r.similarity) filtered), st)

/-- `get_documents`: `SELECT ... ORDER BY created_at DESC`; read-only. -/
def get_documents (st : Store) : Except Err (List Document) × Store :=
  (.ok (sortDesc (fun d => d.created_at) st.documents), st)

/-- `find_document_by_hash`: `WHERE file_hash = ? LIMIT 1`; SQL equality
never matches a NULL hash; read-only. -/
def find_document_by_hash (st : Store) (file_hash : String) :
    Except Err (Option Document) × Store :=
  (.ok (st.documents.find? (fun d => d.file_hash == some file_hash)), st)

/-- `delete_document`: collects the document's chunk rowids, deletes their
`vss_embeddings` rows when there are any (this statement fails with `no such
table` on a degraded store), then deletes the document row, which cascades to
its chunks.  In autocommit mode each `DELETE` commits on its own; a failing
embedding delete leaves the store untouched because the preceding `SELECT`
changed nothing. -/
def delete_document (st : Store) (document_id : String) :
    Except Err Unit × Store :=
  let rowids := (st.chunks.filter (fun c => c.document_id == document_id)).map
    (fun c => c.rowid)
  if rowids ≠ [] ∧ ¬ st.vecAvailable then (.error .noSuchTable, st)
  else
    let st1 := if rowids.isEmpty then st
      else { st with embeddings :=
        st.embeddings.filter (fun e => ! rowids.contains e.rowid) }
    (.ok (), { st1 with
      documents := st1.documents.filter (fun d => ! d.id == document_id),
      chunks := st1.chunks.filter (fun c => ! c.document_id == document_id) })

/-! ### Schema setup (`app/db/engine.py`) -/

/-- Environment of `initialize_database`: whether the sqlite-vec extension
loads (either loading strategy) and whether creating the `vec0` virtual table
succeeds. -/
structure VecEnv where
  loadOk : Bool
  createOk : Bool
  deriving DecidableEq, Repr

/-- `initialize_database` on a fresh database file: creates `documents` and
`chunks`, then attempts the vector acceleration.  Both the extension-load
failure and the virtual-table-creation failure are caught and absorbed (the
function prints a degradation warning and returns normally), which is why the
model is a total function into `Store` rather than an `Except`: no
acceleration failure reaches the caller.  Failures of the baseline table
creation itself are re-raised by the code and are outside this model. -/
def initialize_database (env : VecEnv) (dimensions : Nat) : Store :=
  { documents := [], chunks := [], embeddings := [],
    vecAvailable := env.loadOk && env.createOk, vecDim := dimensions }

/-! ### Session configuration resolution (`ducuchat_api/config.py`)

`validate_session_config` builds the pydantic v2 model `SessionConfig` from
the caller's dictionary.  A JSON field of the input is either absent, present
with value `None`, or present with a value; pydantic v2 distinguishes the
first case sharply: **field validators do not run for fields that take their
declared default** (validation of defaults is off unless
`validate_default=True`, which the code does not set).  Fields are resolved
in declaration order and `info.data` holds the already-resolved earlier
fields.  Only the three chunking-related fields are modelled; the remaining
fields have static defaults with no cross-field logic relevant to the
claims. -/

inductive JField (α : Type) where
  | missing : JField α
  | null : JField α
  | val : α → JField α
  deriving DecidableEq, Repr

structure ChunkingInput where
  embedding_dimensions : JField Int
  chunk_size : JField Int
  chunk_overlap : JField Int
  deriving DecidableEq, Repr

/-- `embedding_dimensions` has no validator: absent or null stays `None`. -/
def resolveDims : JField Int → Option Int
  | .missing => none
  | .null => none
  | .val v => some v

/-- Body of `set_chunking_defaults` for `chunk_size` when called with
`v = None`: `if not dims: return None` (Python falsiness: `None` or `0`),
then the fixed breakpoints. -/
def deriveChunkSize (dims : Option Int) : Option Int :=
  match dims with
  | none => none
  | some d =>
    if d = 0 then none
    else if d ≥ 1024 then some 1000
    else if d ≥ 768 then some 768
    else if d ≥ 512 then some 512
    else some 384

/-- Resolution of the `chunk_size` field: when the key is absent the declared
default `None` is taken and the validator is **skipped** (pydantic v2); when
the key is present the validator runs (`if v is not None: return v`, else
derive). -/
def resolveChunkSize (dims : Option Int) : JField Int → Option Int
  | .missing => none
  | .null => deriveChunkSize dims
  | .val v => some v

/-- Python `int(chunk_size * 0.2)` — truncation toward zero.  Modelled as
exact truncated division of `2 * cs` by `10`; on every chunk size the
derivation breakpoints can produce (384, 512, 768, 1000) the IEEE-double
computation `int(cs * 0.2)` agrees with this (76, 102, 153, 200). -/
def truncOverlap (cs : Int) : Int := Int.tdiv (cs * 2) 10

/-- Resolution of the `chunk_overlap` field: absent key — default `None`,
validator skipped; present key with `None` — validator runs with the already
resolved `embedding_dimensions` and `chunk_size` in `info.data`
(`if not dims: return None`, `if chunk_size: return int(chunk_size * 0.2)`,
else `None`). -/
def resolveChunkOverlap (dims cs : Option Int) : JField Int → Option Int
  | .missing => none
  | .val v => some v
  | .null =>
    match dims with
    | none => none
    | some d =>
      if d = 0 then none
      else
        match cs with
        | none => none
        | some c => if c = 0 then none else some (truncOverlap c)

structure ResolvedChunking where
  embedding_dimensions : Option Int
  chunk_size : Option Int
  chunk_overlap : Option Int
  deriving DecidableEq, Repr

/-- The chunking-relevant fragment of `validate_session_config` /
`SessionConfig` resolution, in pydantic field order. -/
def resolve_session_config (inp : ChunkingInput) : ResolvedChunking :=
  let dims := resolveDims inp.embedding_dimensions
  let cs := resolveChunkSize dims inp.chunk_size
  let co := resolveChunkOverlap dims cs inp.chunk_overlap
  ⟨dims, cs, co⟩

/-! ### Reachable store states -/

/-- Store states reachable from a freshly initialized database through the
repository's operations (the read-only operations return the store
unchanged but are included for completeness). -/
inductive Reachable : Store → Prop where
  | init (env : VecEnv) (dims : Nat) : Reachable (initialize_database env dims)
  | insertDoc {st : Store} (d : DocInput) (now : Nat) :
      Reachable st → Reachable (insert_document st d now).2
  | insertChunks {st : Store} (cs : List ChunkInput) (now : Nat) :
      Reachable st → Reachable (insert_chunks st cs now).2
  | insertEmb {st : Store} (chunk_id : String) (vector : List Nat) :
      Reachable st → Reachable (insert_embedding st chunk_id vector).2
  | deleteDoc {st : Store} (document_id : String) :
      Reachable st → Reachable (delete_document st document_id).2
  | searchOp {st : Store} (simFn : List Nat → List Nat → ℚ) (v : List Nat)
      (limit : Int) (ov : Option ℚ) (thr : ℚ) :
      Reachable st → Reachable (search_similar_embeddings simFn st v limit ov thr).2
  | getDocs {st : Store} : Reachable st → Reachable (get_documents st).2
  | findByHash {st : Store} (h : String) :
      Reachable st → Reachable (find_document_by_hash st h).2

/-- Referential integrity: every chunk row's `document_id` names an existing
document row. -/
def noOrphans (st : Store) : Prop :=
  ∀ c ∈ st.chunks, ∃ d ∈ st.documents, d.id = c.document_id

/-- A store identical to `st` except that the `vss_embeddings` table is
absent (degraded mode).  A store that was initialized degraded also has no
embedding rows, but the operations below are compared on arbitrary states. -/
def clearVec (st : Store) : Store := { st with vecAvailable := false }

/-! ### Concrete fixtures used by witnesses and counterexamples -/

def docD1 : Document := ⟨"d1", "one.txt", "text/plain", 5, some "h1", 0⟩

def chunkC1 : Chunk := ⟨1, "c1", "d1", "alpha", 0⟩

/-- One document, no chunks, vector table of width 1 present. -/
def stDocOnly : Store := ⟨[docD1], [], [], true, 1⟩

/-- One document with one chunk, vector table present, no embeddings. -/
def stBase : Store := ⟨[docD1], [chunkC1], [], true, 1⟩

/-- One document with one chunk, degraded (no vector table). -/
def stDeg : Store := ⟨[docD1], [chunkC1], [], false, 1⟩

/-- One document, one chunk, one stored embedding for its rowid. -/
def stOneEmb : Store := ⟨[docD1], [chunkC1], [⟨1, encodeBlob [5]⟩], true, 1⟩

/-- Similarity function that scores everything `0.9`. -/
def simNine : List Nat → List Nat → ℚ := fun _ _ => mkRat 9 10

def docW : Document := ⟨"d", "w.txt", "text/plain", 10, none, 0⟩

def chunksW : List Chunk :=
  [⟨1, "c1", "d", "t1", 0⟩, ⟨2, "c2", "d", "t2", 0⟩, ⟨3, "c3", "d", "t3", 0⟩,
   ⟨4, "c4", "d", "t4", 0⟩, ⟨5, "c5", "d", "t5", 0⟩]

def embsW : List EmbeddingRow :=
  [⟨1, encodeBlob [10]⟩, ⟨2, encodeBlob [20]⟩, ⟨3, encodeBlob [30]⟩,
   ⟨4, encodeBlob [40]⟩, ⟨5, encodeBlob [50]⟩]

/-- Five chunks of one document with five stored embeddings. -/
def stFive : Store := ⟨[docW], chunksW, embsW, true, 1⟩

/-- Similarity table realizing stored similarities
`[0.9, 0.8, 0.7, 0.6, 0.1]` for the five blobs of `stFive`. -/
def simTable : List Nat → List Nat → ℚ := fun blob _ =>
  if blob = encodeBlob [10] then mkRat 9 10
  else if blob = encodeBlob [20] then mkRat 8 10
  else if blob = encodeBlob [30] then mkRat 7 10
  else if blob = encodeBlob [40] then mkRat 6 10
  else if blob = encodeBlob [50] then mkRat 1 10
  else 0

/-! ## Lemmas -/

theorem mem_insertDesc {α β : Type} [LinearOrder β] (k : α → β) (x a : α) :
    ∀ l : List α, a ∈ insertDesc k x l ↔ a = x ∨ a ∈ l := by
  intro l
  induction l with
  | nil => simp [insertDesc]
  | cons y ys ih =>
    by_cases h : k y ≤ k x
    · simp [insertDesc, h]
    · simp only [insertDesc, if_neg h, List.mem_cons, ih]
      tauto

theorem mem_sortDesc {α β : Type} [LinearOrder β] (k : α → β) (a : α) :
    ∀ l : List α, a ∈ sortDesc k l ↔ a ∈ l := by
  intro l
  induction l with
  | nil => simp [sortDesc]
  | cons x xs ih =>
    simp [sortDesc, mem_insertDesc, ih, eq_comm]

theorem map_insertDesc {α α' β : Type} [LinearOrder β] (f : α → α') (k : α' → β)
    (x : α) : ∀ l : List α,
    (insertDesc (fun a => k (f a)) x l).map f = insertDesc k (f x) (l.map f) := by
  intro l
  induction l with
  | nil => simp [insertDesc]
  | cons y ys ih =>
    by_cases h : k (f y) ≤ k (f x)
    · simp [insertDesc, h]
    · simp [insertDesc, h, ih]

theorem map_sortDesc {α α' β : Type} [LinearOrder β] (f : α → α') (k : α' → β) :
    ∀ l : List α, (sortDesc (fun a => k (f a)) l).map f = sortDesc k (l.map f) := by
  intro l
  induction l with
  | nil => simp [sortDesc]
  | cons x xs ih =>
    simp [sortDesc, map_insertDesc, ih]

theorem sortedDesc_insertDesc {α β : Type} [LinearOrder β] (k : α → β) (x : α) :
    ∀ l : List α, SortedDesc k l → SortedDesc k (insertDesc k x l) := by
  intro l
  induction l with
  | nil => intro _; simp [insertDesc, SortedDesc]
  | cons y ys ih =>
    intro hs
    rw [SortedDesc, List.pairwise_cons] at hs
    obtain ⟨hy, hys⟩ := hs
    by_cases h : k y ≤ k x
    · rw [insertDesc, if_pos h, SortedDesc, List.pairwise_cons]
      refine ⟨?_, ?_⟩
      · intro b hb
        rcases List.mem_cons.mp hb with rfl | hb'
        · exact h
        · exact le_trans (hy b hb') h
      · rw [List.pairwise_cons]
        exact ⟨hy, hys⟩
    · rw [insertDesc, if_neg h, SortedDesc, List.pairwise_cons]
      refine ⟨?_, ih hys⟩
      intro b hb
      rcases (mem_insertDesc k x b ys).mp hb with rfl | hb'
      · exact le_of_not_le h
      · exact hy b hb'

theorem sortedDesc_sortDesc {α β : Type} [LinearOrder β] (k : α → β) :
    ∀ l : List α, SortedDesc k (sortDesc k l) := by
  intro l
  induction l with
  | nil => simp [sortDesc, SortedDesc]
  | cons x xs ih => exact sortedDesc_insertDesc k x _ ih

theorem sortDesc_eq_of_sortedDesc {α β : Type} [LinearOrder β] (k : α → β) :
    ∀ l : List α, SortedDesc k l → sortDesc k l = l := by
  intro l
  induction l with
  | nil => intro _; rfl
  | cons x xs ih =>
    intro hs
    rw [SortedDesc, List.pairwise_cons] at hs
    obtain ⟨hx, hxs⟩ := hs
    rw [sortDesc, ih hxs]
    cases xs with
    | nil => rfl
    | cons y ys =>
      rw [insertDesc, if_pos (hx y (List.mem_cons_self y ys))]

theorem sortedDesc_take {α β : Type} [LinearOrder β] (k : α → β) (n : Nat)
    (l : List α) (h : SortedDesc k l) : SortedDesc k (l.take n) :=
  List.Pairwise.sublist (List.take_sublist n l) h

theorem sortedDesc_filter {α β : Type} [LinearOrder β] (k : α → β) (p : α → Bool)
    (l : List α) (h : SortedDesc k l) : SortedDesc k (l.filter p) :=
  List.Pairwise.filter p h

theorem decodeBlob_encodeWord_append (w : Nat) (hw : w < 4294967296)
    (rest : List Nat) : decodeBlob (encodeWord w ++ rest) = w :: decodeBlob rest := by
  show decodeBlob (w % 256 :: (w / 256 % 256 :: (w / 65536 % 256 :: (w / 16777216 % 256 :: rest)))) = _
  rw [decodeBlob]
  congr 1
  omega

theorem encodeBlob_length : ∀ v : List Nat, (encodeBlob v).length = 4 * v.length := by
  intro v
  induction v with
  | nil => rfl
  | cons w ws ih =>
    rw [encodeBlob, List.length_append, ih]
    simp [encodeWord, List.length_cons]
    omega

theorem decodeBlob_encodeBlob : ∀ v : List Nat, (∀ w ∈ v, w < 4294967296) →
    decodeBlob (encodeBlob v) = v := by
  intro v
  induction v with
  | nil => intro _; rfl
  | cons w ws ih =>
    intro h
    rw [encodeBlob, decodeBlob_encodeWord_append w (h w (List.mem_cons_self w ws)),
      ih (fun x hx => h x (List.mem_cons_of_mem w hx))]

/-! ## Claims -/

/-- C10: for every float32 vector of length N, encoding it to the storage
blob (fixed-width little-endian IEEE-754 single precision, 4 bytes per word,
no delimiter, no length prefix — the blob is exactly `4 * N` bytes) and
decoding the blob back yields exactly the original float32 values. -/
theorem float32_blob_roundtrip (v : List Nat) (h : ∀ w ∈ v, w < 4294967296) :
    decodeBlob (encodeBlob v) = v ∧ (encodeBlob v).length = 4 * v.length :=
  ⟨decodeBlob_encodeBlob v h, encodeBlob_length v⟩

/-- Witness for C10 at the concrete vector with words 0, 1, 1065353216
(the bits of 1.0f) and 4294967295. -/
theorem float32_blob_roundtrip_witness :
    decodeBlob (encodeBlob [0, 1, 1065353216, 4294967295]) =
        [0, 1, 1065353216, 4294967295] ∧
      (encodeBlob [0, 1, 1065353216, 4294967295]).length =
        4 * ([0, 1, 1065353216, 4294967295] : List Nat).length :=
  float32_blob_roundtrip [0, 1, 1065353216, 4294967295] (by decide)

/-- C7: for every `chunk_id` that matches no stored chunk and every vector,
`insert_embedding` fails with the not-found error (the `ValueError` the
operation raises itself; the spec's `NotFoundError`) and leaves the store
unchanged — the rowid lookup precedes every other step, so this holds
regardless of the vector's validity and of vector-table availability. -/
theorem insert_embedding_missing_chunk_not_found (st : Store) (chunk_id : String)
    (vector : List Nat) (h : ∀ c ∈ st.chunks, c.id ≠ chunk_id) :
    insert_embedding st chunk_id vector = (.error .notFoundError, st) := by
  have hfind : st.chunks.find? (fun c => c.id == chunk_id) = none := by
    rw [List.find?_eq_none]
    intro c hc
    simpa using h c hc
  rw [insert_embedding, hfind]

/-- Witness for C7: a chunk id absent from `stBase`, with a vector whose
length does not even match the table width. -/
theorem insert_embedding_missing_chunk_not_found_witness :
    insert_embedding stBase "zzz" [7, 8] = (.error .notFoundError, stBase) :=
  insert_embedding_missing_chunk_not_found stBase "zzz" [7, 8] (by decide)

/-- C5 (code bug): with `chunk_size` and `chunk_overlap` keys absent from the
input, pydantic v2 assigns their defaults (`None`) **without running the
`set_chunking_defaults` validator** (`validate_default` is not enabled), so
the dimension-based derivation the claim describes never happens:
`{embedding_dimensions: 768}` resolves to `chunk_size = None`,
`chunk_overlap = None`, not 768 and 153.  The derivation code itself is as
the claim states, but it is only reached when the keys are present with an
explicit `None` value, as the last two conjuncts show. -/
theorem resolve_config_skips_derivation_for_absent_fields :
    resolve_session_config ⟨.val 768, .missing, .missing⟩ =
        ⟨some 768, none, none⟩ ∧
      resolve_session_config ⟨.val 1536, .missing, .missing⟩ =
        ⟨some 1536, none, none⟩ ∧
      resolve_session_config ⟨.val 768, .null, .null⟩ =
        ⟨some 768, some 768, some 153⟩ ∧
      resolve_session_config ⟨.val 1536, .null, .null⟩ =
        ⟨some 1536, some 1000, some 200⟩ :=
  ⟨rfl, rfl, rfl, rfl⟩

/-- C2 (code bug): `insert_chunks` is not all-or-nothing.  The connection is
opened with `isolation_level=None` (autocommit), so each `INSERT` in the loop
commits immediately and the `with connection:` block — despite the code's
own comment "Insert chunks in a transaction" — rolls nothing back.  On the
store holding only document `d1`, the batch `[c1 -> d1, c2 -> dX]` fails on
`c2`'s foreign key, yet `c1` remains present afterwards while `c2` does
not. -/
theorem insert_chunks_partial_batch_persists :
    (insert_chunks stDocOnly [⟨"c1", "d1", "alpha"⟩, ⟨"c2", "dX", "beta"⟩] 7).1 =
        .error .foreignKeyError ∧
      chunkIdExists
        (insert_chunks stDocOnly [⟨"c1", "d1", "alpha"⟩, ⟨"c2", "dX", "beta"⟩] 7).2
        "c1" = true ∧
      chunkIdExists
        (insert_chunks stDocOnly [⟨"c1", "d1", "alpha"⟩, ⟨"c2", "dX", "beta"⟩] 7).2
        "c2" = false :=
  ⟨rfl, rfl, rfl⟩

/-- C3: after a `delete_document` call that returns success, no chunk row of
the deleted document and no embedding row keyed by the rowid of any of its
chunks remains: the operation collects the document's chunk rowids, deletes
those `vss_embeddings` rows explicitly, and the document delete cascades to
the chunks. -/
theorem delete_document_cascade_complete (st : Store) (document_id : String)
    (st' : Store) (h : delete_document st document_id = (.ok (), st')) :
    (∀ c ∈ st'.chunks, c.document_id ≠ document_id) ∧
    (∀ e ∈ st'.embeddings, ∀ c ∈ st.chunks,
      c.document_id = document_id → e.rowid ≠ c.rowid) := by
  rw [delete_document] at h
  set rowids := (st.chunks.filter (fun c => c.document_id == document_id)).map
    (fun c => c.rowid) with hrowids
  by_cases hcond : rowids ≠ [] ∧ ¬ st.vecAvailable
  · rw [if_pos hcond] at h
    exact absurd (congrArg Prod.fst h) (by simp)
  · rw [if_neg hcond] at h
    have hst' := (Prod.mk.injEq _ _ _ _).mp h
    rw [← hst'.2]
    constructor
    · intro c hc
      have := (List.mem_filter.mp hc).2
      simpa using this
    · intro e he c hc hdid
      have hcin : c.rowid ∈ rowids := by
        rw [hrowids]
        exact List.mem_map_of_mem _ (List.mem_filter.mpr ⟨hc, by simp [hdid]⟩)
      by_cases hemp : rowids.isEmpty
      · rw [List.isEmpty_iff] at hemp
        rw [hemp] at hcin
        exact absurd hcin (List.not_mem_nil _)
      · simp only [if_neg hemp] at he
        have := (List.mem_filter.mp he).2
        intro heq
        rw [heq] at this
        simp at this
        exact this hcin

/-- Witness for C3: deleting `d1` from the store with one chunk and one
embedding empties all three relations. -/
theorem delete_document_cascade_complete_witness :
    (∀ c ∈ (⟨[], [], [], true, 1⟩ : Store).chunks, c.document_id ≠ "d1") ∧
    (∀ e ∈ (⟨[], [], [], true, 1⟩ : Store).embeddings, ∀ c ∈ stOneEmb.chunks,
      c.document_id = "d1" → e.rowid ≠ c.rowid) :=
  delete_document_cascade_complete stOneEmb "d1" ⟨[], [], [], true, 1⟩ rfl

/-- Counterexample to C6 as stated: `insert_embedding` performs no length
check of its own, so the dimension enforcement is **not** independent of the
underlying store.  On `stBase` (vector table of width 1, chunk `c1` present)
a length-2 vector fails with the vec0 table's own rejection, not with an
operation-level `DimensionMismatchError`; and on the degraded `stDeg`, where
the underlying table is absent, the same wrong-length insert fails with a
missing-table error — no dimension check happens at all. -/
theorem insert_embedding_dimension_check_not_operation_level :
    insert_embedding stBase "c1" [5, 6] = (.error .vecDimensionReject, stBase) ∧
      insert_embedding stDeg "c1" [5, 6] = (.error .noSuchTable, stDeg) ∧
      Err.vecDimensionReject ≠ Err.dimensionMismatchError ∧
      Err.noSuchTable ≠ Err.dimensionMismatchError :=
  ⟨rfl, rfl, by decide, by decide⟩

/-- C6 as amended: for every existing chunk and every vector whose length
disagrees with the vector table's configured dimensionality, on a store
whose vector table is present `insert_embedding` fails — the wrong-width
blob is rejected by the vec0 table itself, surfaced as the store's error —
and stores nothing. -/
theorem insert_embedding_wrong_length_rejected_by_store (st : Store)
    (chunk_id : String) (vector : List Nat) (c : Chunk)
    (hc : st.chunks.find? (fun x => x.id == chunk_id) = some c)
    (hvec : st.vecAvailable = true) (hlen : vector.length ≠ st.vecDim) :
    insert_embedding st chunk_id vector = (.error .vecDimensionReject, st) := by
  have hblob : (encodeBlob vector).length ≠ 4 * st.vecDim := by
    rw [encodeBlob_length]; omega
  simp [insert_embedding, hc, hvec, hblob]

/-- Witness for C6 (amended) on `stBase` with a length-3 vector against the
width-1 table. -/
theorem insert_embedding_wrong_length_rejected_by_store_witness :
    insert_embedding stBase "c1" [5, 6, 7] = (.error .vecDimensionReject, stBase) :=
  insert_embedding_wrong_length_rejected_by_store stBase "c1" [5, 6, 7] chunkC1
    rfl rfl (by decide)

/-- Counterexample to C8 as stated: a negative `limit` does **not** yield an
empty result list.  The limit is bound straight into SQL `LIMIT ?`, and
SQLite treats a negative LIMIT as "no limit": on `stOneEmb` (one stored
embedding scoring 0.9 against threshold 0.5) a search with `limit = -1`
returns that row, although `-1 ≤ 0`. -/
theorem search_negative_limit_returns_results :
    (-1 : Int) ≤ 0 ∧
      (search_similar_embeddings simNine stOneEmb [5] (-1) none (mkRat 1 2)).1 =
        .ok [⟨"c1", "alpha", "d1", mkRat 9 10, [5]⟩] :=
  ⟨by decide, rfl⟩

/-- C8 as amended: on a store whose vector table exists, a search against an
empty embedding set returns an empty result list rather than an error (for
any limit), and a search with `limit = 0` returns an empty result list; a
negative limit is passed to SQL `LIMIT`, which treats it as "no limit". -/
theorem search_empty_store_and_zero_limit (simFn : List Nat → List Nat → ℚ)
    (st : Store) (v : List Nat) (limit : Int) (ov : Option ℚ) (thr : ℚ)
    (hvec : st.vecAvailable = true) :
    (st.embeddings = [] →
      (search_similar_embeddings simFn st v limit ov thr).1 = .ok []) ∧
    (search_similar_embeddings simFn st v 0 ov thr).1 = .ok [] := by
  constructor
  · intro hemp
    simp [search_similar_embeddings, hvec, hemp, sqlLimit, sortDesc]
  · simp [search_similar_embeddings, hvec, sqlLimit, sortDesc]

/-- Witness for C8 (amended): empty-store search with the default limit 20
on `stDocOnly`, and zero-limit search on the non-empty `stOneEmb`. -/
theorem search_empty_store_and_zero_limit_witness :
    (search_similar_embeddings simNine stDocOnly [5] 20 none (mkRat 1 2)).1 =
        .ok [] ∧
      (search_similar_embeddings simNine stOneEmb [5] 0 none (mkRat 1 2)).1 =
        .ok [] :=
  ⟨(search_empty_store_and_zero_limit simNine stDocOnly [5] 20 none
      (mkRat 1 2) rfl).1 rfl,
    (search_empty_store_and_zero_limit simNine stOneEmb [5] 0 none
      (mkRat 1 2) rfl).2⟩

theorem insertChunkRow_clearVec (st : Store) (c : ChunkInput) (now : Nat) :
    insertChunkRow (clearVec st) c now = (insertChunkRow st c now).map clearVec := by
  have e1 : chunkIdExists (clearVec st) c.id = chunkIdExists st c.id := rfl
  have e2 : docIdExists (clearVec st) c.document_id = docIdExists st c.document_id := rfl
  have e3 : nextRowid (clearVec st) = nextRowid st := rfl
  rw [insertChunkRow, insertChunkRow, e1, e2, e3]
  cases h1 : chunkIdExists st c.id <;> cases h2 : docIdExists st c.document_id <;>
    simp [h1, h2] <;> rfl

theorem insertChunksLoop_clearVec (now : Nat) :
    ∀ (cs : List ChunkInput) (st : Store),
    insertChunksLoop now (clearVec st) cs =
      ((insertChunksLoop now st cs).1, clearVec (insertChunksLoop now st cs).2) := by
  intro cs
  induction cs with
  | nil => intro st; rfl
  | cons c cs ih =>
    intro st
    rw [insertChunksLoop, insertChunksLoop, insertChunkRow_clearVec]
    cases h : insertChunkRow st c now with
    | error e => simp [Except.map]
    | ok st' => simp [Except.map, ih st']

theorem insert_chunks_clearVec (st : Store) (cs : List ChunkInput) (now : Nat) :
    insert_chunks (clearVec st) cs now =
      ((insert_chunks st cs now).1, clearVec (insert_chunks st cs now).2) := by
  rw [insert_chunks, insert_chunks, insertChunksLoop_clearVec]
  cases h : insertChunksLoop now st cs with
  | mk r st' => cases r <;> simp

theorem insert_document_clearVec (st : Store) (d : DocInput) (now : Nat) :
    insert_document (clearVec st) d now =
      ((insert_document st d now).1, clearVec (insert_document st d now).2) := by
  have e1 : docIdExists (clearVec st) d.id = docIdExists st d.id := rfl
  rw [insert_document, insert_document, e1]
  cases h : docIdExists st d.id <;> simp [h, clearVec]

/-- Counterexample to C4 as stated: on the degraded store `stDeg` (vector
table absent, document `d1` with chunk `c1`), `delete_document "d1"` fails
with the missing-table error and deletes nothing, because the code
unconditionally issues `DELETE FROM vss_embeddings` whenever the document
has chunks; the same delete on the non-degraded twin `stBase` succeeds.
`delete_document` is therefore not fully functional on a degraded store. -/
theorem delete_document_fails_on_degraded_store :
    delete_document stDeg "d1" = (.error .noSuchTable, stDeg) ∧
      (delete_document stBase "d1").1 = .ok () :=
  ⟨rfl, rfl⟩

/-- C4 as amended: schema setup absorbs every vector-acceleration failure
(it is a total function whose result merely lacks the vector table), and on
a degraded store `insert_document`, `insert_chunks`, `get_documents` and
`find_document_by_hash` behave exactly as on the same store with the vector
table present; `delete_document` remains functional only for documents
without chunks — when the document has chunks it fails with the
missing-table error and changes nothing. -/
theorem degraded_store_storage_ops (st : Store) :
    (∀ env dims, (initialize_database env dims).vecAvailable =
      (env.loadOk && env.createOk)) ∧
    (∀ d now, insert_document (clearVec st) d now =
      ((insert_document st d now).1, clearVec (insert_document st d now).2)) ∧
    (∀ cs now, insert_chunks (clearVec st) cs now =
      ((insert_chunks st cs now).1, clearVec (insert_chunks st cs now).2)) ∧
    ((get_documents (clearVec st)).1 = (get_documents st).1) ∧
    (∀ h, (find_document_by_hash (clearVec st) h).1 =
      (find_document_by_hash st h).1) ∧
    (∀ did, (∀ c ∈ st.chunks, c.document_id ≠ did) →
      delete_document (clearVec st) did =
        (.ok (), clearVec (delete_document st did).2)) ∧
    (∀ did, (∃ c ∈ st.chunks, c.document_id = did) →
      delete_document (clearVec st) did = (.error .noSuchTable, clearVec st)) := by
  refine ⟨fun env dims => rfl, insert_document_clearVec st,
    insert_chunks_clearVec st, rfl, fun h => rfl, ?_, ?_⟩
  · intro did hnone
    have hfil : st.chunks.filter (fun c => c.document_id == did) = [] := by
      rw [List.filter_eq_nil_iff]
      intro c hc
      simpa using hnone c hc
    have efil : (clearVec st).chunks.filter (fun c => c.document_id == did) = [] := hfil
    rw [delete_document, delete_document, hfil, efil]
    simp [clearVec]
  · intro did hsome
    obtain ⟨c, hc, hdid⟩ := hsome
    have hmem : c.rowid ∈ (st.chunks.filter
        (fun x => x.document_id == did)).map (fun x => x.rowid) :=
      List.mem_map_of_mem _ (List.mem_filter.mpr ⟨hc, by simp [hdid]⟩)
    have hne : (st.chunks.filter (fun x => x.document_id == did)).map
        (fun x => x.rowid) ≠ [] := List.ne_nil_of_mem hmem
    have hne' : ((clearVec st).chunks.filter (fun x => x.document_id == did)).map
        (fun x => x.rowid) ≠ [] := hne
    rw [delete_document, if_pos ⟨hne', by simp [clearVec]⟩]

/-- Witness for C4 (amended): insertion and chunk-free deletion on the
degraded twin of `stDocOnly` behave as on the original. -/
theorem degraded_store_storage_ops_witness :
    insert_document (clearVec stDocOnly) ⟨"d2", "two.txt", "text/plain", 3, none⟩ 5 =
        ((insert_document stDocOnly ⟨"d2", "two.txt", "text/plain", 3, none⟩ 5).1,
          clearVec (insert_document stDocOnly ⟨"d2", "two.txt", "text/plain", 3, none⟩ 5).2) ∧
      delete_document (clearVec stDocOnly) "d1" =
        (.ok (), clearVec (delete_document stDocOnly "d1").2) :=
  ⟨(degraded_store_storage_ops stDocOnly).2.1 ⟨"d2", "two.txt", "text/plain", 3, none⟩ 5,
    (degraded_store_storage_ops stDocOnly).2.2.2.2.2.1 "d1" (by decide)⟩

theorem docIdExists_iff (st : Store) (x : String) :
    docIdExists st x = true ↔ ∃ d ∈ st.documents, d.id = x := by
  simp [docIdExists]

theorem noOrphans_insert_document (st : Store) (d : DocInput) (now : Nat)
    (h : noOrphans st) : noOrphans (insert_document st d now).2 := by
  rw [insert_document]
  split
  · exact h
  · intro c hc
    obtain ⟨dd, hdd, heq⟩ := h c hc
    exact ⟨dd, List.mem_append_left _ hdd, heq⟩

theorem noOrphans_insertChunkRow (st st' : Store) (c : ChunkInput) (now : Nat)
    (h : noOrphans st) (hok : insertChunkRow st c now = .ok st') : noOrphans st' := by
  rw [insertChunkRow] at hok
  by_cases h1 : chunkIdExists st c.id = true
  · rw [if_pos h1] at hok
    exact absurd hok (by simp)
  · rw [if_neg h1] at hok
    by_cases h2 : docIdExists st c.document_id = true
    · rw [if_neg (by simpa using h2)] at hok
      have hst' := (Except.ok.injEq _ _).mp hok.symm
      rw [hst']
      intro ch hch
      rcases List.mem_append.mp hch with hold | hnew
      · exact h ch hold
      · rcases List.mem_singleton.mp hnew with rfl
        obtain ⟨dd, hdd, heq⟩ := (docIdExists_iff st c.document_id).mp h2
        exact ⟨dd, hdd, heq⟩
    · rw [if_pos (by simpa using h2)] at hok
      exact absurd hok (by simp)

theorem noOrphans_insertChunksLoop (now : Nat) :
    ∀ (cs : List ChunkInput) (st : Store), noOrphans st →
      noOrphans (insertChunksLoop now st cs).2 := by
  intro cs
  induction cs with
  | nil => intro st h; exact h
  | cons c cs ih =>
    intro st h
    rw [insertChunksLoop]
    cases hc : insertChunkRow st c now with
    | error e => exact h
    | ok st' => exact ih st' (noOrphans_insertChunkRow st st' c now h hc)

theorem insert_chunks_snd (st : Store) (cs : List ChunkInput) (now : Nat) :
    (insert_chunks st cs now).2 = (insertChunksLoop now st cs).2 := by
  rw [insert_chunks]
  cases h : insertChunksLoop now st cs with
  | mk r s => cases r <;> rfl

theorem noOrphans_insert_embedding (st : Store) (chunk_id : String)
    (vector : List Nat) (h : noOrphans st) :
    noOrphans (insert_embedding st chunk_id vector).2 := by
  rw [insert_embedding]
  cases hf : st.chunks.find? (fun c => c.id == chunk_id) with
  | none => exact h
  | some c =>
    dsimp only
    by_cases hv : ¬ st.vecAvailable = true
    · rw [if_pos hv]; exact h
    · rw [if_neg hv]
      by_cases hl : (encodeBlob vector).length ≠ 4 * st.vecDim
      · rw [if_pos hl]; exact h
      · rw [if_neg hl]
        by_cases ha : (st.embeddings.any fun e => e.rowid == c.rowid) = true
        · rw [if_pos ha]; exact h
        · rw [if_neg ha]
          intro ch hch
          exact h ch hch

theorem noOrphans_delete_document (st : Store) (did : String) (h : noOrphans st) :
    noOrphans (delete_document st did).2 := by
  rw [delete_document]
  set rowids := (st.chunks.filter (fun c => c.document_id == did)).map
    (fun c => c.rowid) with hr
  by_cases hcond : rowids ≠ [] ∧ ¬ st.vecAvailable
  · rw [if_pos hcond]; exact h
  · rw [if_neg hcond]
    intro c hc
    by_cases hemp : rowids.isEmpty
    · simp only [if_pos hemp] at hc ⊢
      have hm := List.mem_filter.mp hc
      obtain ⟨dd, hdd, heq⟩ := h c hm.1
      refine ⟨dd, List.mem_filter.mpr ⟨hdd, ?_⟩, heq⟩
      have hne : (c.document_id == did) = false := by
        simpa using hm.2
      rw [heq]
      simp [hne]
    · simp only [if_neg hemp] at hc ⊢
      have hm := List.mem_filter.mp hc
      obtain ⟨dd, hdd, heq⟩ := h c hm.1
      refine ⟨dd, List.mem_filter.mpr ⟨hdd, ?_⟩, heq⟩
      have hne : (c.document_id == did) = false := by
        simpa using hm.2
      rw [heq]
      simp [hne]

theorem search_similar_embeddings_snd (simFn : List Nat → List Nat → ℚ)
    (st : Store) (v : List Nat) (limit : Int) (ov : Option ℚ) (thr : ℚ) :
    (search_similar_embeddings simFn st v limit ov thr).2 = st := by
  rw [search_similar_embeddings]
  split <;> rfl

/-- C9: referential integrity is an invariant of every reachable store
state.  Inserting a chunk whose `document_id` matches no document fails (the
foreign-key pragma is ON for every connection) without changing the store,
and no sequence of the repository's operations ever produces a chunk whose
`document_id` lacks a matching document row. -/
theorem chunks_reference_existing_documents :
    (∀ (st : Store) (c : ChunkInput) (now : Nat),
      docIdExists st c.document_id = false →
      (insert_chunks st [c] now).1.isOk = false ∧
        (insert_chunks st [c] now).2 = st) ∧
    (∀ st : Store, Reachable st → noOrphans st) := by
  constructor
  · intro st c now hdoc
    cases h1 : chunkIdExists st c.id <;>
      simp [insert_chunks, insertChunksLoop, insertChunkRow, h1, hdoc,
        Except.isOk, Except.toBool]
  · intro st h
    induction h with
    | init env dims => intro c hc; exact absurd hc (List.not_mem_nil c)
    | insertDoc d now _ ih => exact noOrphans_insert_document _ d now ih
    | insertChunks cs now _ ih =>
      rw [insert_chunks_snd]
      exact noOrphans_insertChunksLoop now cs _ ih
    | insertEmb chunk_id vector _ ih =>
      exact noOrphans_insert_embedding _ chunk_id vector ih
    | deleteDoc did _ ih => exact noOrphans_delete_document _ did ih
    | searchOp simFn v limit ov thr _ ih =>
      rw [search_similar_embeddings_snd]
      exact ih
    | getDocs _ ih => exact ih
    | findByHash hsh _ ih => exact ih

/-- Witness for C9: a dangling chunk insert on `stDocOnly` fails and changes
nothing, and the state reached by initializing, inserting `d1` and then its
chunk `c1` has no orphan chunks. -/
theorem chunks_reference_existing_documents_witness :
    ((insert_chunks stDocOnly [⟨"cX", "nodoc", "t"⟩] 3).1.isOk = false ∧
      (insert_chunks stDocOnly [⟨"cX", "nodoc", "t"⟩] 3).2 = stDocOnly) ∧
    noOrphans (insert_chunks
      (insert_document (initialize_database ⟨true, true⟩ 384)
        ⟨"d1", "one.txt", "text/plain", 5, some "h1"⟩ 0).2
      [⟨"c1", "d1", "alpha"⟩] 0).2 :=
  ⟨chunks_reference_existing_documents.1 stDocOnly ⟨"cX", "nodoc", "t"⟩ 3 rfl,
    chunks_reference_existing_documents.2 _
      (Reachable.insertChunks _ 0 (Reachable.insertDoc _ 0
        (Reachable.init ⟨true, true⟩ 384)))⟩

theorem mem_sqlLimit {α : Type} (limit : Int) (l : List α) (a : α)
    (h : a ∈ sqlLimit limit l) : a ∈ l := by
  rw [sqlLimit] at h
  split at h
  · exact h
  · exact List.mem_of_mem_take h

theorem joined_map_similarity (st : Store) :
    ∀ l : List (EmbeddingRow × ℚ),
    (∀ m ∈ l, (st.chunks.find? (fun c => c.rowid == m.1.rowid)).isSome = true) →
    (l.filterMap (fun m =>
      (st.chunks.find? (fun c => c.rowid == m.1.rowid)).map (fun c =>
        (⟨c.id, c.content, c.document_id, m.2, decodeBlob m.1.blob⟩ :
          SearchResult)))).map (fun r => r.similarity) =
      l.map (fun m => m.2) := by
  intro l
  induction l with
  | nil => intro _; rfl
  | cons m ms ih =>
    intro hall
    obtain ⟨c, hc⟩ := Option.isSome_iff_exists.mp
      (hall m (List.mem_cons_self m ms))
    have hf : (st.chunks.find? (fun x => x.rowid == m.1.rowid)).map (fun c =>
        (⟨c.id, c.content, c.document_id, m.2, decodeBlob m.1.blob⟩ :
          SearchResult)) =
        some ⟨c.id, c.content, c.document_id, m.2, decodeBlob m.1.blob⟩ := by
      rw [hc]; rfl
    rw [List.filterMap_cons, hf, List.map_cons, List.map_cons,
      ih (fun x hx => hall x (List.mem_cons_of_mem m hx))]

theorem map_sortDesc_self {α : Type} (f : α → ℚ) (l : List α) :
    (sortDesc f l).map f = sortDesc id (l.map f) :=
  map_sortDesc f id l

theorem map_filter_key {α : Type} (f : α → ℚ) (p : ℚ → Bool) (l : List α) :
    (l.filter (fun a => p (f a))).map f = (l.map f).filter p := by
  induction l with
  | nil => rfl
  | cons a l ih => by_cases h : p (f a) <;> simp [h, ih]

/-- C1: search orders all scored candidates descending by similarity,
truncates to the top `limit`, and only then filters by
`similarity >= threshold`, with the threshold taken from the override when
given and from the session default otherwise — the similarity values of the
result are exactly
`filter (threshold ≤ ·) (take limit (sortDesc (all similarities)))`, never
the filter-before-truncate variant. -/
theorem search_ranks_truncates_then_filters
    (simFn : List Nat → List Nat → ℚ) (st : Store) (v : List Nat)
    (limit : Int) (ov : Option ℚ) (thr : ℚ)
    (hvec : st.vecAvailable = true)
    (hres : ∀ e ∈ st.embeddings,
      (st.chunks.find? (fun c => c.rowid == e.rowid)).isSome = true)
    (hlim : 0 ≤ limit) :
    ∃ r, (search_similar_embeddings simFn st v limit ov thr).1 = .ok r ∧
      r.map (fun x => x.similarity) =
        ((sortDesc id (st.embeddings.map
            (fun e => simFn e.blob (encodeBlob v)))).take limit.toNat).filter
          (fun s => ov.getD thr ≤ s) := by
  have hok : ∃ r, (search_similar_embeddings simFn st v limit ov thr).1 = .ok r := by
    rw [search_similar_embeddings, if_neg (by simp [hvec])]
    exact ⟨_, rfl⟩
  obtain ⟨r, hr⟩ := hok
  refine ⟨r, hr, ?_⟩
  rw [search_similar_embeddings, if_neg (by simp [hvec])] at hr
  have hrr := (Except.ok.injEq _ _).mp hr
  rw [← hrr]
  rw [map_sortDesc_self (fun x : SearchResult => x.similarity)]
  rw [map_filter_key (fun x : SearchResult => x.similarity)
    (fun s => decide (ov.getD thr ≤ s))]
  have h3 := joined_map_similarity st
    (sqlLimit limit (sortDesc (fun m => m.2) (st.embeddings.map
      (fun e => (e, simFn e.blob (encodeBlob v))))))
    (by
      intro m hm
      have hmem : m ∈ st.embeddings.map (fun e => (e, simFn e.blob (encodeBlob v))) :=
        (mem_sortDesc _ m _).mp (mem_sqlLimit limit _ m hm)
      obtain ⟨e, he, heq⟩ := List.mem_map.mp hmem
      rw [← heq]
      exact hres e he)
  rw [h3]
  have h4 : sqlLimit limit (sortDesc (fun m : EmbeddingRow × ℚ => m.2)
      (st.embeddings.map (fun e => (e, simFn e.blob (encodeBlob v))))) =
      (sortDesc (fun m : EmbeddingRow × ℚ => m.2) (st.embeddings.map
        (fun e => (e, simFn e.blob (encodeBlob v))))).take limit.toNat := by
    rw [sqlLimit, if_neg (by omega)]
  rw [h4, List.map_take]
  rw [map_sortDesc_self (fun m : EmbeddingRow × ℚ => m.2), List.map_map]
  have hcomp : ((fun m : EmbeddingRow × ℚ => m.2) ∘
      (fun e => (e, simFn e.blob (encodeBlob v)))) =
      (fun e : EmbeddingRow => simFn e.blob (encodeBlob v)) := rfl
  rw [hcomp]
  exact sortDesc_eq_of_sortedDesc (id (α := ℚ)) _
    (sortedDesc_filter _ _ _ (sortedDesc_take _ _ _ (sortedDesc_sortDesc _ _)))

/-- Witness for C1: on the store with stored similarities
`[0.9, 0.8, 0.7, 0.6, 0.1]`, `limit = 3` and override threshold `0.75`
(session default 0.5), the result is exactly the two candidates scoring 0.9
and 0.8 — the 0.7 candidate is dropped by truncation, not kept. -/
theorem search_ranks_truncates_then_filters_witness :
    ∃ r, (search_similar_embeddings simTable stFive [99] 3 (some (mkRat 3 4))
        (mkRat 1 2)).1 = .ok r ∧
      r = [⟨"c1", "t1", "d", mkRat 9 10, [10]⟩,
           ⟨"c2", "t2", "d", mkRat 8 10, [20]⟩] ∧
      r.map (fun x => x.similarity) = [mkRat 9 10, mkRat 8 10] := by
  obtain ⟨r, h1, h2⟩ := search_ranks_truncates_then_filters simTable stFive [99]
    3 (some (mkRat 3 4)) (mkRat 1 2) rfl (by decide) (by decide)
  refine ⟨r, h1, ?_, ?_⟩
  · have heval : (search_similar_embeddings simTable stFive [99] 3
        (some (mkRat 3 4)) (mkRat 1 2)).1 =
        .ok [⟨"c1", "t1", "d", mkRat 9 10, [10]⟩,
             ⟨"c2", "t2", "d", mkRat 8 10, [20]⟩] := by rfl
    rw [heval] at h1
    exact ((Except.ok.injEq _ _).mp h1).symm
  · rw [h2]
    decide

end DocuChat
